import Mathlib

/-!
Shallow embedding of the SmartReview AI backend core (store / review / feedback
services and the AI response parser) together with proofs about the frozen
specification claims.

Conventions of the embedding:
* Python dicts become association lists `List (String × α)` with first-match
  lookup (`dget`), in-place replacement or append (`dset`), and first-match
  deletion (`ddel`), mirroring dict semantics (keys unique by construction).
* Python strings at the parser level become `List Char`; `datetime` values
  become abstract `Nat` ticks (with `datetime.min` as `0`); Python floats that
  are only stored, never compared, become `Rat`.
* The external OpenAI provider is a parameter of type `Except String String`
  (error message or raw generated text); `uuid.uuid4()` and `datetime.utcnow()`
  are parameters (`newId`, `now`).
* Exceptions become `Except`; a `try/except` that converts to a result value
  becomes a `match` on the `Except`.
-/

/-! ## Dict model -/

def dget {α : Type} (k : String) : List (String × α) → Option α
  | [] => none
  | (k', v) :: t => if k' = k then some v else dget k t

def dset {α : Type} (k : String) (v : α) : List (String × α) → List (String × α)
  | [] => [(k, v)]
  | (k', v') :: t => if k' = k then (k, v) :: t else (k', v') :: dset k v t

def ddel {α : Type} (k : String) : List (String × α) → List (String × α)
  | [] => []
  | (k', v') :: t => if k' = k then t else (k', v') :: ddel k t

/-! ## Character/string utilities (Python `str.strip`, `str.lower`, `in`, split/join) -/

def isWS (c : Char) : Bool :=
  c = ' ' || c = '\t' || c = '\n' || c = '\r' || c = '\x0b' || c = '\x0c'

def lowerL (l : List Char) : List Char := l.map Char.toLower

/-- Python's `pat in s` substring test (`"" in s` is `True`). -/
def occursL (pat : List Char) : List Char → Bool
  | [] => pat.isEmpty
  | c :: t => pat.isPrefixOf (c :: t) || occursL pat t

/-- Python's `str.strip()`: drop leading and trailing whitespace. -/
def stripL (l : List Char) : List Char :=
  ((l.dropWhile isWS).reverse.dropWhile isWS).reverse

/-- Python's `str.split('\n')`: always returns at least one (possibly empty) segment. -/
def splitNL : List Char → List (List Char)
  | [] => [[]]
  | c :: t =>
    if c = '\n' then [] :: splitNL t
    else
      match splitNL t with
      | [] => [[c]]
      | seg :: rest => (c :: seg) :: rest

/-- Python's `'\n'.join(segs)`. -/
def joinNL : List (List Char) → List Char
  | [] => []
  | [s] => s
  | s :: rest => s ++ '\n' :: joinNL rest

/-! ## `AIService._parse_response`

The source uses two regexes (``re.IGNORECASE``):
`Title:\s*(.+?)(?:\n|$)` and `Review:\s*(.+)` (the latter with ``re.DOTALL``),
then strips residual `Title:`/`Review:` labels, synthesizes a title or falls
back to the raw text when a part is empty, and truncates the title to 100
characters.  The search/backtracking semantics are embedded directly:
`\s*` greedily takes the longest whitespace run and backtracks one character
at a time until the lazy `(.+?)` (which cannot cross `'\n'`) or the greedy
DOTALL `(.+)` can match. -/

/-- Backtracking tail of `Title:\s*(.+?)(?:\n|$)` after the label: try consuming
`k` whitespace characters (largest first); the captured group is the run of
non-newline characters starting there. -/
def titleCap (rest : List Char) : Nat → Option (List Char)
  | 0 =>
    match rest with
    | [] => none
    | c :: t => if c = '\n' then none else some ((c :: t).takeWhile (fun x => x != '\n'))
  | k + 1 =>
    match rest.drop (k + 1) with
    | [] => titleCap rest k
    | c :: t => if c = '\n' then titleCap rest k else some ((c :: t).takeWhile (fun x => x != '\n'))

/-- Attempt the title regex anchored at the start of `s`. -/
def tryTitle (s : List Char) : Option (List Char) :=
  if ("title:".data).isPrefixOf (lowerL s) then
    let rest := s.drop 6
    titleCap rest ((rest.takeWhile isWS).length)
  else none

/-- `re.search` for the title regex: leftmost position whose attempt succeeds. -/
def findTitle : List Char → Option (List Char)
  | [] => none
  | c :: t =>
    match tryTitle (c :: t) with
    | some cap => some cap
    | none => findTitle t

/-- Attempt `Review:\s*(.+)` (DOTALL) anchored at the start of `s`: after the
label, `\s*` backtracks just enough to leave at least one character for `(.+)`,
which then greedily captures to the end. -/
def tryReview (s : List Char) : Option (List Char) :=
  if ("review:".data).isPrefixOf (lowerL s) then
    let rest := s.drop 7
    if rest.isEmpty then none
    else some (rest.drop (min ((rest.takeWhile isWS).length) (rest.length - 1)))
  else none

/-- `re.search` for the review regex. -/
def findReview : List Char → Option (List Char)
  | [] => none
  | c :: t =>
    match tryReview (c :: t) with
    | some cap => some cap
    | none => findReview t

/-- `re.sub(r'^Label:\s*', '', s, flags=re.IGNORECASE)` for a lowercase label `pat`. -/
def stripLabel (pat : List Char) (s : List Char) : List Char :=
  if pat.isPrefixOf (lowerL s) then (s.drop pat.length).dropWhile isWS else s

/-- `AIService._parse_response` on `List Char`. -/
def parseCore (response : List Char) : List Char × List Char :=
  let raw :=
    match findTitle response, findReview response with
    | some t, some r => (stripL t, stripL r)
    | _, _ =>
      match splitNL (stripL response) with
      | [] => ([], stripL response)
      | l0 :: rest =>
        (stripL l0, if rest.isEmpty then stripL response else stripL (joinNL rest))
  let title0 := stripLabel ("review:".data) (stripLabel ("title:".data) raw.1)
  let content0 := stripLabel ("review:".data) raw.2
  let title1 :=
    if title0.isEmpty then
      if occursL ("good".data) (lowerL content0) || occursL ("great".data) (lowerL content0) then
        "Great experience".data
      else "Service review".data
    else title0
  let content1 := if content0.isEmpty then stripL response else content0
  (title1.take 100, content1)

/-- `AIService._parse_response` on `String`. -/
def parseResponse (s : String) : String × String :=
  let p := parseCore s.data
  (String.mk p.1, String.mk p.2)

/-! ## Data model (`app/models/store.py`, `app/models/review.py`) -/

inductive ReviewType
  | positive
  | negative
  | neutral
deriving DecidableEq

inductive ReviewStatus
  | draft
  | generated
  | published
  | archived
deriving DecidableEq

inductive ReviewSource
  | ai_generated
  | user_input
  | manual
deriving DecidableEq

structure ReviewMetadata where
  keywords_used : List String := []
  sentiment_score : Option Rat := none
  readability_score : Option Rat := none
  ai_model_used : Option String := none
  generation_time : Option Rat := none
deriving DecidableEq

structure Review where
  review_id : String
  store_id : String
  rating : Nat
  title : String
  content : String
  review_type : ReviewType
  review_source : ReviewSource
  language : String := "ja"
  seo_keywords : List String := []
  metadata : ReviewMetadata
  status : ReviewStatus := ReviewStatus.draft
  created_at : Option Nat := none
  updated_at : Option Nat := none
  published_at : Option Nat := none
deriving DecidableEq

structure ReviewRequest where
  store_id : String
  rating : Nat
  service_keywords : Option (List String) := none
  custom_prompt : Option String := none
  language : String := "ja"
  include_seo : Bool := true
  review_length : String := "medium"
  tone : String := "friendly"
deriving DecidableEq

structure Location where
  address : String
  city : String
  prefecture : String
  postal_code : String
  lat : Rat
  lng : Rat
  nearest_station : String
  walking_minutes : Option Nat := none
deriving DecidableEq

structure Service where
  id : String
  name : String
  name_en : Option String := none
  description : Option String := none
  category : Option String := none
  keywords : List String := []
deriving DecidableEq

structure Platform where
  type : String
  url : String
  is_active : Bool := true
deriving DecidableEq

structure StoreSettings where
  available_languages : List String := ["ja"]
  default_language : String := "ja"
  min_rating_for_external : Nat := 4
  ai_model : String := "gpt-4-turbo-preview"
deriving DecidableEq

structure Store where
  store_id : String
  name : String
  name_kana : Option String := none
  description : String
  location : Location
  services : List Service
  seo_keywords : List String := []
  platforms : List Platform := []
  settings : StoreSettings
  images : List (List (String × String)) := []
  created_at : Option Nat := none
  updated_at : Option Nat := none
deriving DecidableEq

/-- `StoreUpdate`: every field is `Optional[...] = None` in pydantic; the outer
`Option` is "explicitly set in the request vs unset" (`exclude_unset`), the
inner `Option` is the explicit value, which may be `None`. -/
structure StoreUpdate where
  name : Option (Option String) := none
  name_kana : Option (Option String) := none
  description : Option (Option String) := none
  location : Option (Option Location) := none
  services : Option (Option (List Service)) := none
  seo_keywords : Option (Option (List String)) := none
  platforms : Option (Option (List Platform)) := none
  settings : Option (Option StoreSettings) := none
deriving DecidableEq

/-- `ReviewUpdate`, with the same two-level optionality as `StoreUpdate`. -/
structure ReviewUpdate where
  rating : Option (Option Nat) := none
  title : Option (Option String) := none
  content : Option (Option String) := none
  review_type : Option (Option ReviewType) := none
  seo_keywords : Option (Option (List String)) := none
  metadata : Option (Option ReviewMetadata) := none
  status : Option (Option ReviewStatus) := none
deriving DecidableEq

structure ReviewGenerationResult where
  success : Bool
  review : Option Review := none
  error : Option String := none
  suggestions : List String := []
  redirect_platforms : List String := []
deriving DecidableEq

structure FeedbackCapture where
  store_id : String
  rating : Nat
  feedback_content : String
  improvement_areas : List String := []
  contact_info : Option String := none
  follow_up_required : Bool := false
  created_at : Option Nat := none
deriving DecidableEq

/-! ## `AIService` pure helpers -/

/-- `settings.OPENAI_MODEL` default (`app/core/config.py`). -/
def OPENAI_MODEL : String := "gpt-4-turbo-preview"

/-- `AIService._calculate_sentiment_score`. -/
def AIService.calculate_sentiment_score (rating : Nat) : Rat :=
  if rating = 1 then 1/10
  else if rating = 2 then 3/10
  else if rating = 3 then 1/2
  else if rating = 4 then 7/10
  else if rating = 5 then 9/10
  else 1/2

/-- `AIService._extract_keywords_used`: keep the SEO keywords that occur
case-insensitively in the generated content. -/
def AIService.extract_keywords_used (content : String) (seo_keywords : List String) : List String :=
  seo_keywords.filter (fun k => occursL (lowerL k.data) (lowerL content.data))

/-- `AIService.generate_review`: the provider call `_call_openai` is the
`provider` parameter (raises → `Except.error` with the message built by
`_call_openai`); on success the response is parsed and metadata assembled.
Any provider failure is re-raised as `"AI service error: ..."`. -/
def AIService.generate_review (store : Store) (request : ReviewRequest)
    (provider : Except String String) (elapsed : Rat) :
    Except String (String × String × ReviewMetadata) :=
  match provider with
  | Except.error e => Except.error ("AI service error: Failed to generate review: " ++ e)
  | Except.ok raw =>
    let pc := parseResponse raw
    Except.ok (pc.1, pc.2,
      { keywords_used := AIService.extract_keywords_used pc.2 store.seo_keywords
        sentiment_score := some (AIService.calculate_sentiment_score request.rating)
        ai_model_used := some OPENAI_MODEL
        generation_time := some elapsed })

/-! ## `StoreService` -/

/-- `StoreService.get_store`. -/
def StoreService.get_store (stores : List (String × Store)) (store_id : String) : Option Store :=
  dget store_id stores

/-- `StoreService.get_store_by_qr`: resolve via the QR index, then by id.
Python's `if store_id:` treats the empty string as falsy. -/
def StoreService.get_store_by_qr (stores : List (String × Store))
    (qr : List (String × String)) (qr_code : String) : Option Store :=
  match dget qr_code qr with
  | some sid => if sid = "" then none else dget sid stores
  | none => none

/-- `value is not None`-guarded `setattr` for a target field that is required
on the entity: overwritten only when the patch field is explicitly present
with a non-`None` value. -/
def patchReq {β : Type} (f : Option (Option β)) (old : β) : β :=
  match f with
  | some (some v) => v
  | _ => old

/-- Same for a target field that is itself optional on the entity. -/
def patchOpt {β : Type} (f : Option (Option β)) (old : Option β) : Option β :=
  match f with
  | some (some v) => some v
  | _ => old

/-- The field loop of `StoreService.update_store` (`exclude_unset` dict walk). -/
def StoreService.apply_update (s : Store) (u : StoreUpdate) : Store :=
  { s with
    name := patchReq u.name s.name
    name_kana := patchOpt u.name_kana s.name_kana
    description := patchReq u.description s.description
    location := patchReq u.location s.location
    services := patchReq u.services s.services
    seo_keywords := patchReq u.seo_keywords s.seo_keywords
    platforms := patchReq u.platforms s.platforms
    settings := patchReq u.settings s.settings }

/-- `StoreService.update_store`. -/
def StoreService.update_store (stores : List (String × Store)) (store_id : String)
    (u : StoreUpdate) (now : Nat) : Option Store × List (String × Store) :=
  match dget store_id stores with
  | none => (none, stores)
  | some s =>
    let s' := { StoreService.apply_update s u with updated_at := some now }
    (some s', dset store_id s' stores)

/-- `StoreService.delete_store`: remove the store, then delete every QR entry
whose value is that store id. -/
def StoreService.delete_store (stores : List (String × Store))
    (qr : List (String × String)) (store_id : String) :
    Bool × List (String × Store) × List (String × String) :=
  match dget store_id stores with
  | some _ => (true, ddel store_id stores, qr.filter (fun e => e.2 != store_id))
  | none => (false, stores, qr)

/-- `StoreService.add_qr_mapping`. -/
def StoreService.add_qr_mapping (stores : List (String × Store))
    (qr : List (String × String)) (qr_code store_id : String) :
    Bool × List (String × String) :=
  if (dget store_id stores).isSome then (true, dset qr_code store_id qr)
  else (false, qr)

/-- Modelled from the spec: `StoreService.add_store_platform` is invoked by the
HTTP endpoint `add_store_platform` (`store.py`) but the method itself is absent
from the provided `store_service.py`. Spec §4.1: "add/remove platform (add
fails if the platform type already exists on the store or store absent)";
Scenario C: the conflict is a boolean failure and no mutation occurs. -/
def StoreService.add_store_platform (stores : List (String × Store))
    (store_id : String) (p : Platform) : Bool × List (String × Store) :=
  match dget store_id stores with
  | none => (false, stores)
  | some s =>
    if s.platforms.any (fun q => q.type == p.type) then (false, stores)
    else (true, dset store_id { s with platforms := s.platforms ++ [p] } stores)

/-! ## Filtering, sorting (stable, `created_at` descending, `None` as
`datetime.min`) and pagination shared by the list operations -/

def sortKey (o : Option Nat) : Nat := o.getD 0

/-- Insert into a descending-sorted list, after any element of equal key
(Python's stable `sort(..., reverse=True)`). -/
def insertDesc {α : Type} (key : α → Nat) (x : α) : List α → List α
  | [] => [x]
  | y :: ys => if key y ≤ key x then x :: y :: ys else y :: insertDesc key x ys

/-- Stable insertion sort, descending by `key`. -/
def sortDesc {α : Type} (key : α → Nat) : List α → List α
  | [] => []
  | x :: xs => insertDesc key x (sortDesc key xs)

/-- The slice `l[(page-1)*limit : (page-1)*limit + limit]`. -/
def paginate {α : Type} (l : List α) (page limit : Nat) : List α :=
  (l.drop ((page - 1) * limit)).take limit

/-- The filter stage of `ReviewService.list_reviews` (`if store_id:` and
`if status:` are Python truthiness tests). -/
def ReviewService.filter_reviews (reviews : List (String × Review))
    (store_id : Option String) (status : Option ReviewStatus) : List Review :=
  let vs := (reviews.map (fun e => e.2))
  let f1 := match store_id with
    | some sid => if sid = "" then vs else vs.filter (fun r => r.store_id == sid)
    | none => vs
  match status with
  | some st => f1.filter (fun r => decide (r.status = st))
  | none => f1

/-- `ReviewService.list_reviews`: returns (page of reviews, total). -/
def ReviewService.list_reviews (reviews : List (String × Review))
    (store_id : Option String) (status : Option ReviewStatus)
    (page limit : Nat) : List Review × Nat :=
  let sorted := sortDesc (fun r => sortKey r.created_at)
    (ReviewService.filter_reviews reviews store_id status)
  (paginate sorted page limit, sorted.length)

/-- The search filter of `StoreService.list_stores` (case-insensitive substring
over name, description, name_kana when truthy, and SEO keywords). -/
def StoreService.filter_stores (stores : List (String × Store))
    (search : Option String) : List Store :=
  let vs := (stores.map (fun e => e.2))
  match search with
  | some s =>
    if s = "" then vs
    else
      let sl := lowerL s.data
      vs.filter (fun st =>
        occursL sl (lowerL st.name.data) ||
        occursL sl (lowerL st.description.data) ||
        (match st.name_kana with
         | some nk => nk != "" && occursL sl (lowerL nk.data)
         | none => false) ||
        st.seo_keywords.any (fun k => occursL sl (lowerL k.data)))
  | none => vs

/-- `StoreService.list_stores`: returns (page of stores, total). -/
def StoreService.list_stores (stores : List (String × Store))
    (page limit : Nat) (search : Option String) : List Store × Nat :=
  let sorted := sortDesc (fun st => sortKey st.created_at)
    (StoreService.filter_stores stores search)
  (paginate sorted page limit, sorted.length)

/-! ## `ReviewService` -/

/-- `ReviewService._determine_review_type`. -/
def ReviewService.determine_review_type (rating : Nat) : ReviewType :=
  if rating ≥ 4 then ReviewType.positive
  else if rating = 3 then ReviewType.neutral
  else ReviewType.negative

/-- `ReviewService._get_redirect_platforms`. -/
def ReviewService.get_redirect_platforms (store : Store) (rating : Nat) : List String :=
  if rating ≥ store.settings.min_rating_for_external then
    (store.platforms.filter (fun p => p.is_active)).map (fun p => p.url)
  else []

/-- `ReviewService.generate_review`: the routing state machine.  `provider`,
`elapsed`, `newId`, `now` stand for the provider call, `time.time()` deltas,
`uuid.uuid4()` and `datetime.utcnow()`. -/
def ReviewService.generate_review (stores : List (String × Store))
    (reviews : List (String × Review)) (request : ReviewRequest)
    (provider : Except String String) (elapsed : Rat) (newId : String) (now : Nat) :
    ReviewGenerationResult × List (String × Review) :=
  match dget request.store_id stores with
  | none =>
    ({ success := false, error := some ("Store not found: " ++ request.store_id) }, reviews)
  | some store =>
    let redirect_platforms := ReviewService.get_redirect_platforms store request.rating
    if request.rating < store.settings.min_rating_for_external then
      ({ success := true
         review := none
         suggestions := ["This is a low rating review. Please provide feedback for improvement.",
                         "Your valuable feedback will be used to improve our services."]
         redirect_platforms := [] }, reviews)
    else
      match AIService.generate_review store request provider elapsed with
      | Except.error e => ({ success := false, error := some e }, reviews)
      | Except.ok (title, content, metadata) =>
        let review : Review :=
          { review_id := newId
            store_id := request.store_id
            rating := request.rating
            title := title
            content := content
            review_type := ReviewService.determine_review_type request.rating
            review_source := ReviewSource.ai_generated
            language := request.language
            seo_keywords := if request.include_seo then store.seo_keywords else []
            metadata := metadata
            status := ReviewStatus.generated
            created_at := some now
            updated_at := some now }
        ({ success := true, review := some review, redirect_platforms := redirect_platforms },
         dset newId review reviews)

/-- The field loop of `ReviewService.update_review`. -/
def ReviewService.apply_update (r : Review) (u : ReviewUpdate) : Review :=
  { r with
    rating := patchReq u.rating r.rating
    title := patchReq u.title r.title
    content := patchReq u.content r.content
    review_type := patchReq u.review_type r.review_type
    seo_keywords := patchReq u.seo_keywords r.seo_keywords
    metadata := patchReq u.metadata r.metadata
    status := patchReq u.status r.status }

/-- `ReviewService.update_review`. -/
def ReviewService.update_review (reviews : List (String × Review)) (review_id : String)
    (u : ReviewUpdate) (now : Nat) : Option Review × List (String × Review) :=
  match dget review_id reviews with
  | none => (none, reviews)
  | some r =>
    let r' := { ReviewService.apply_update r u with updated_at := some now }
    (some r', dset review_id r' reviews)

/-- `ReviewService.publish_review`. -/
def ReviewService.publish_review (reviews : List (String × Review)) (review_id : String)
    (now : Nat) : Option Review × List (String × Review) :=
  match dget review_id reviews with
  | none => (none, reviews)
  | some r =>
    let r' := { r with status := ReviewStatus.published
                       published_at := some now
                       updated_at := some now }
    (some r', dset review_id r' reviews)

/-- `ReviewService.capture_feedback`: store the record (with `created_at`
overwritten by `now`), then best-effort compute improvement suggestions whose
outcome — including the store lookup result and a raised provider error — is
discarded. -/
def ReviewService.capture_feedback (stores : List (String × Store))
    (feedback_store : List (String × FeedbackCapture)) (feedback : FeedbackCapture)
    (newId : String) (now : Nat) (suggestOutcome : Except String (List String)) :
    String × List (String × FeedbackCapture) :=
  let fb := { feedback with created_at := some now }
  let stored := dset newId fb feedback_store
  let _ := match dget feedback.store_id stores with
    | some _ => (match suggestOutcome with
      | Except.ok s => s.length
      | Except.error _ => 0)
    | none => 0
  (newId, stored)

/-- `ReviewService.get_feedback`. -/
def ReviewService.get_feedback (feedback_store : List (String × FeedbackCapture))
    (feedback_id : String) : Option FeedbackCapture :=
  dget feedback_id feedback_store

/-! ## Concrete sample data (used by witnesses and counterexamples) -/

def sampleLocation : Location :=
  { address := "Tokyo Shibuya Jinnan 1-15-3"
    city := "Shibuya"
    prefecture := "Tokyo"
    postal_code := "150-0041"
    lat := 35
    lng := 139
    nearest_station := "JR Shibuya Station"
    walking_minutes := some 5 }

def sampleStore : Store :=
  { store_id := "sample-salon-001"
    name := "Sample Beauty Salon"
    name_kana := some "Sample Beauty Salon"
    description := "A modern beauty salon"
    location := sampleLocation
    services := []
    seo_keywords := ["beauty salon", "cut"]
    platforms := [{ type := "google", url := "https://g.example/sample" },
                  { type := "hotpepper", url := "https://h.example/sample" }]
    settings := { min_rating_for_external := 4 }
    created_at := some 1
    updated_at := some 1 }

def sampleReview : Review :=
  { review_id := "r1"
    store_id := "sample-salon-001"
    rating := 5
    title := "T"
    content := "C"
    review_type := ReviewType.positive
    review_source := ReviewSource.ai_generated
    metadata := {}
    status := ReviewStatus.published
    created_at := some 2
    updated_at := some 2
    published_at := some 2 }

def sampleRequest (rating : Nat) : ReviewRequest :=
  { store_id := "sample-salon-001", rating := rating }

/-- A `StoreUpdate` whose `name_kana` field is explicitly present with value `None`. -/
def kanaPatch : StoreUpdate := { name_kana := some none }

/-- Specification of one partially-patched field whose target is required:
explicitly-present-with-value overwrites, otherwise the old value is kept. -/
def PatchedReq {β : Type} (f : Option (Option β)) (old new : β) : Prop :=
  (∀ x, f = some (some x) → new = x) ∧ ((f = none ∨ f = some none) → new = old)

/-- Same for a field whose target is optional on the entity. -/
def PatchedOpt {β : Type} (f : Option (Option β)) (old new : Option β) : Prop :=
  (∀ x, f = some (some x) → new = some x) ∧ ((f = none ∨ f = some none) → new = old)

/-! ## Dictionary lemmas -/

theorem dget_dset_self {α : Type} (k : String) (v : α) (m : List (String × α)) :
    dget k (dset k v m) = some v := by
  induction m with
  | nil => simp [dset, dget]
  | cons e t ih =>
    obtain ⟨k', v'⟩ := e
    by_cases h : k' = k
    · simp [dset, dget, h]
    · simp [dset, dget, h, ih]

theorem dget_eq_none_of_not_mem {α : Type} (k : String) (m : List (String × α))
    (h : k ∉ m.map Prod.fst) : dget k m = none := by
  induction m with
  | nil => simp [dget]
  | cons e t ih =>
    obtain ⟨k', v'⟩ := e
    simp only [List.map_cons, List.mem_cons] at h
    push_neg at h
    have hne : ¬ k' = k := fun hh => h.1 hh.symm
    simp [dget, hne, ih h.2]

theorem dget_ddel_self {α : Type} (k : String) (m : List (String × α))
    (hnd : (m.map Prod.fst).Nodup) : dget k (ddel k m) = none := by
  induction m with
  | nil => simp [ddel, dget]
  | cons e t ih =>
    obtain ⟨k', v'⟩ := e
    simp only [List.map_cons, List.nodup_cons] at hnd
    by_cases h : k' = k
    · simp only [ddel, if_pos h]
      exact dget_eq_none_of_not_mem k t (h ▸ hnd.1)
    · simp [ddel, dget, h, ih hnd.2]

theorem dget_ddel_ne {α : Type} (k k' : String) (m : List (String × α)) (h : k' ≠ k) :
    dget k' (ddel k m) = dget k' m := by
  induction m with
  | nil => simp [ddel]
  | cons e t ih =>
    obtain ⟨k₀, v₀⟩ := e
    by_cases h0 : k₀ = k
    · subst h0
      have hne : ¬ k₀ = k' := fun hh => h hh.symm
      simp [ddel, dget, hne]
    · simp [ddel, dget, h0, ih]

theorem dset_eq_append {α : Type} (k : String) (v : α) (m : List (String × α))
    (h : k ∉ m.map Prod.fst) : dset k v m = m ++ [(k, v)] := by
  induction m with
  | nil => simp [dset]
  | cons e t ih =>
    obtain ⟨k', v'⟩ := e
    simp only [List.map_cons, List.mem_cons] at h
    push_neg at h
    have hne : ¬ k' = k := fun hh => h.1 hh.symm
    simp [dset, hne, ih h.2]

theorem dget_filter_eq_none {α : Type} (P : String × α → Bool) (k : String) (v : α)
    (m : List (String × α)) (hnd : (m.map Prod.fst).Nodup)
    (hv : dget k m = some v) (hP : P (k, v) = false) :
    dget k (m.filter P) = none := by
  induction m with
  | nil => simp [dget] at hv
  | cons e t ih =>
    obtain ⟨k', v'⟩ := e
    simp only [List.map_cons, List.nodup_cons] at hnd
    by_cases h : k' = k
    · subst h
      simp only [dget, if_true, eq_self_iff_true, Option.some.injEq] at hv
      subst hv
      rw [List.filter_cons, if_neg (by simp [hP])]
      refine dget_eq_none_of_not_mem _ _ (fun hmem => hnd.1 ?_)
      obtain ⟨e, he, hke⟩ := List.mem_map.mp hmem
      exact List.mem_map.mpr ⟨e, (List.mem_filter.mp he).1, hke⟩
    · simp only [dget, if_neg h] at hv
      rw [List.filter_cons]
      by_cases hPe : P (k', v') = true
      · rw [if_pos hPe]
        simp [dget, h, ih hnd.2 hv]
      · rw [if_neg (by simp [hPe])]
        exact ih hnd.2 hv

/-! ## Claim C3 -/

/-- C3: for every rating r in 1..5, `ReviewService._determine_review_type` yields
positive iff r ≥ 4, neutral iff r = 3, and negative iff r ≤ 2. -/
theorem C3_review_type (r : Nat) (h1 : 1 ≤ r) (h5 : r ≤ 5) :
    (ReviewService.determine_review_type r = ReviewType.positive ↔ 4 ≤ r) ∧
    (ReviewService.determine_review_type r = ReviewType.neutral ↔ r = 3) ∧
    (ReviewService.determine_review_type r = ReviewType.negative ↔ r ≤ 2) := by
  interval_cases r <;> exact ⟨by decide, by decide, by decide⟩

/-- Witness for C3 at r = 5. -/
theorem C3_review_type_witness :
    1 ≤ 5 ∧ 5 ≤ 5 ∧
    ((ReviewService.determine_review_type 5 = ReviewType.positive ↔ 4 ≤ 5) ∧
     (ReviewService.determine_review_type 5 = ReviewType.neutral ↔ 5 = 3) ∧
     (ReviewService.determine_review_type 5 = ReviewType.negative ↔ 5 ≤ 2)) :=
  ⟨by decide, by decide, C3_review_type 5 (by decide) (by decide)⟩

/-! ## Claim C5 -/

/-- C5: adding a platform whose type already exists on the store fails as a
boolean failure with no mutation of the store list, and adding to an absent
store also fails (spec-modelled `StoreService.add_store_platform`). -/
theorem C5_add_platform (stores : List (String × Store)) (sid : String) (p : Platform) :
    (dget sid stores = none → StoreService.add_store_platform stores sid p = (false, stores)) ∧
    (∀ s q, dget sid stores = some s → q ∈ s.platforms → q.type = p.type →
      StoreService.add_store_platform stores sid p = (false, stores)) := by
  constructor
  · intro h
    simp [StoreService.add_store_platform, h]
  · intro s q hs hq ht
    have hany : s.platforms.any (fun q => q.type == p.type) = true :=
      List.any_eq_true.mpr ⟨q, hq, by simp [ht]⟩
    simp [StoreService.add_store_platform, hs, hany]

/-- Witness for C5: adding a second "google" platform to the sample store
(which already has an active "google" platform) fails and mutates nothing. -/
theorem C5_add_platform_witness :
    dget "sample-salon-001" [("sample-salon-001", sampleStore)] = some sampleStore ∧
    ({ type := "google", url := "https://g.example/sample" } : Platform) ∈ sampleStore.platforms ∧
    StoreService.add_store_platform [("sample-salon-001", sampleStore)] "sample-salon-001"
      { type := "google", url := "https://g.example/other" } =
      (false, [("sample-salon-001", sampleStore)]) :=
  ⟨rfl, by simp [sampleStore],
   (C5_add_platform _ _ _).2 sampleStore { type := "google", url := "https://g.example/sample" }
     rfl (by simp [sampleStore]) rfl⟩

/-! ## Claim C8 -/

/-- C8: publishing re-asserts status=published and re-stamps published_at and
updated_at while leaving every other field unchanged (so publishing an
already-published review is idempotent on its data); publishing a nonexistent
review returns not-found. -/
theorem C8_publish (reviews : List (String × Review)) (rid : String) (now : Nat) :
    (dget rid reviews = none → ReviewService.publish_review reviews rid now = (none, reviews)) ∧
    (∀ r, dget rid reviews = some r →
      ReviewService.publish_review reviews rid now =
        (some { r with status := ReviewStatus.published
                       published_at := some now
                       updated_at := some now },
         dset rid { r with status := ReviewStatus.published
                           published_at := some now
                           updated_at := some now } reviews) ∧
      ∀ r', (ReviewService.publish_review reviews rid now).1 = some r' →
        r'.review_id = r.review_id ∧ r'.store_id = r.store_id ∧ r'.rating = r.rating ∧
        r'.title = r.title ∧ r'.content = r.content ∧ r'.review_type = r.review_type ∧
        r'.review_source = r.review_source ∧ r'.language = r.language ∧
        r'.seo_keywords = r.seo_keywords ∧ r'.metadata = r.metadata ∧
        r'.created_at = r.created_at ∧
        r'.status = ReviewStatus.published ∧ r'.published_at = some now ∧
        r'.updated_at = some now) := by
  constructor
  · intro h
    simp [ReviewService.publish_review, h]
  · intro r hr
    constructor
    · simp [ReviewService.publish_review, hr]
    · intro r' hr'
      simp [ReviewService.publish_review, hr] at hr'
      subst hr'
      exact ⟨rfl, rfl, rfl, rfl, rfl, rfl, rfl, rfl, rfl, rfl, rfl, rfl, rfl, rfl⟩

/-- Witness for C8: publishing the (already published) sample review. -/
theorem C8_publish_witness :
    dget "r1" [("r1", sampleReview)] = some sampleReview ∧
    ReviewService.publish_review [("r1", sampleReview)] "r1" 7 =
      (some { sampleReview with status := ReviewStatus.published
                                published_at := some 7
                                updated_at := some 7 },
       dset "r1" { sampleReview with status := ReviewStatus.published
                                     published_at := some 7
                                     updated_at := some 7 } [("r1", sampleReview)]) :=
  ⟨rfl, ((C8_publish [("r1", sampleReview)] "r1" 7).2 sampleReview rfl).1⟩

/-! ## Claim C10 -/

/-- C10: `capture_feedback` unconditionally succeeds: it returns the fresh id,
stores the record with `created_at` overwritten by the current time, the record
is retrievable via `get_feedback` under that id, and the result is independent
of the store lookup and of the improvement-suggestion call outcome (including
a raised error). -/
theorem C10_capture_feedback (stores : List (String × Store))
    (fbs : List (String × FeedbackCapture)) (feedback : FeedbackCapture)
    (newId : String) (now : Nat) (out1 out2 : Except String (List String)) :
    (ReviewService.capture_feedback stores fbs feedback newId now out1).1 = newId ∧
    (ReviewService.capture_feedback stores fbs feedback newId now out1).2 =
      dset newId { feedback with created_at := some now } fbs ∧
    ReviewService.get_feedback
      (ReviewService.capture_feedback stores fbs feedback newId now out1).2 newId =
      some { feedback with created_at := some now } ∧
    ReviewService.capture_feedback stores fbs feedback newId now out2 =
      ReviewService.capture_feedback stores fbs feedback newId now out1 := by
  refine ⟨rfl, rfl, ?_, rfl⟩
  simp [ReviewService.capture_feedback, ReviewService.get_feedback, dget_dset_self]

/-! ## Claim C6 -/

/-- C6: deleting an existing store removes it and every QR mapping whose value
is that store's id; each such QR code subsequently resolves to not-found via
`get_store_by_qr`; and the "every QR key references an existing store"
invariant is preserved. -/
theorem C6_delete_cascade (stores : List (String × Store)) (qr : List (String × String))
    (sid : String) (s : Store)
    (hs : dget sid stores = some s)
    (hnds : (stores.map Prod.fst).Nodup)
    (hndq : (qr.map Prod.fst).Nodup) :
    (StoreService.delete_store stores qr sid).1 = true ∧
    (StoreService.delete_store stores qr sid).2.1 = ddel sid stores ∧
    dget sid (StoreService.delete_store stores qr sid).2.1 = none ∧
    (StoreService.delete_store stores qr sid).2.2 = qr.filter (fun e => e.2 != sid) ∧
    (∀ code, dget code qr = some sid →
      StoreService.get_store_by_qr (StoreService.delete_store stores qr sid).2.1
        (StoreService.delete_store stores qr sid).2.2 code = none) ∧
    ((∀ e ∈ qr, (dget e.2 stores).isSome) →
      ∀ e ∈ (StoreService.delete_store stores qr sid).2.2,
        (dget e.2 (StoreService.delete_store stores qr sid).2.1).isSome) := by
  have hd : StoreService.delete_store stores qr sid =
      (true, ddel sid stores, qr.filter (fun e => e.2 != sid)) := by
    simp [StoreService.delete_store, hs]
  refine ⟨by rw [hd], by rw [hd], ?_, by rw [hd], ?_, ?_⟩
  · rw [hd]
    exact dget_ddel_self sid stores hnds
  · intro code hcode
    rw [hd]
    have hnone : dget code (qr.filter (fun e => e.2 != sid)) = none :=
      dget_filter_eq_none _ code sid qr hndq hcode (by simp)
    simp [StoreService.get_store_by_qr, hnone]
  · intro hinv e he
    rw [hd] at he ⊢
    have he' := List.mem_filter.mp he
    have hne : e.2 ≠ sid := by simpa using he'.2
    rw [dget_ddel_ne sid e.2 stores hne]
    exact hinv e he'.1

/-- Witness for C6 on the sample store with one QR mapping. -/
theorem C6_delete_cascade_witness :
    dget "sample-salon-001" [("sample-salon-001", sampleStore)] = some sampleStore ∧
    (StoreService.delete_store [("sample-salon-001", sampleStore)]
      [("qr1", "sample-salon-001")] "sample-salon-001").1 = true ∧
    StoreService.get_store_by_qr
      (StoreService.delete_store [("sample-salon-001", sampleStore)]
        [("qr1", "sample-salon-001")] "sample-salon-001").2.1
      (StoreService.delete_store [("sample-salon-001", sampleStore)]
        [("qr1", "sample-salon-001")] "sample-salon-001").2.2 "qr1" = none :=
  ⟨rfl,
   (C6_delete_cascade [("sample-salon-001", sampleStore)] [("qr1", "sample-salon-001")]
     "sample-salon-001" sampleStore rfl (by simp) (by simp)).1,
   (C6_delete_cascade [("sample-salon-001", sampleStore)] [("qr1", "sample-salon-001")]
     "sample-salon-001" sampleStore rfl (by simp) (by simp)).2.2.2.2.1 "qr1" rfl⟩

/-! ## Claim C2 -/

/-- C2: when the store exists, the rating passes the threshold gate and the
provider call fails, `generate_review` converts the raised error into a
`success=false` result carrying the error message, persists nothing, and (being
a total function of the provider outcome) propagates no exception. -/
theorem C2_ai_failure (stores : List (String × Store)) (reviews : List (String × Review))
    (request : ReviewRequest) (e : String) (elapsed : Rat) (newId : String) (now : Nat)
    (store : Store)
    (hs : dget request.store_id stores = some store)
    (hge : store.settings.min_rating_for_external ≤ request.rating) :
    ReviewService.generate_review stores reviews request (Except.error e) elapsed newId now =
      ({ success := false
         review := none
         error := some ("AI service error: Failed to generate review: " ++ e)
         suggestions := []
         redirect_platforms := [] }, reviews) := by
  simp [ReviewService.generate_review, hs, AIService.generate_review, Nat.not_lt.mpr hge]

/-- Witness for C2: provider failure "connection reset" on the sample store. -/
theorem C2_ai_failure_witness :
    dget (sampleRequest 5).store_id [("sample-salon-001", sampleStore)] = some sampleStore ∧
    sampleStore.settings.min_rating_for_external ≤ (sampleRequest 5).rating ∧
    ReviewService.generate_review [("sample-salon-001", sampleStore)] [] (sampleRequest 5)
        (Except.error "connection reset") 0 "id-9" 9 =
      ({ success := false
         review := none
         error := some ("AI service error: Failed to generate review: " ++ "connection reset")
         suggestions := []
         redirect_platforms := [] }, []) :=
  ⟨rfl, by decide,
   C2_ai_failure [("sample-salon-001", sampleStore)] [] (sampleRequest 5) "connection reset"
     0 "id-9" 9 sampleStore rfl (by decide)⟩

/-! ## Claim C1 -/

/-- C1: with the store present, a rating below `min_rating_for_external` yields
success=true with no review, the fixed pair of guidance suggestions and no
redirect platforms, leaving the repository untouched — and since `provider` is
universally quantified on the left of an equation whose right side does not
mention it, the provider is not consulted; a rating at or above the threshold
with a successful provider call persists exactly one review with
status=generated and returns the URLs of the store's active platforms. -/
theorem C1_threshold_gate (stores : List (String × Store)) (reviews : List (String × Review))
    (request : ReviewRequest) (provider : Except String String) (elapsed : Rat)
    (newId : String) (now : Nat) (store : Store)
    (hs : dget request.store_id stores = some store) :
    (request.rating < store.settings.min_rating_for_external →
      ReviewService.generate_review stores reviews request provider elapsed newId now =
        ({ success := true
           review := none
           error := none
           suggestions := ["This is a low rating review. Please provide feedback for improvement.",
                           "Your valuable feedback will be used to improve our services."]
           redirect_platforms := [] }, reviews)) ∧
    (store.settings.min_rating_for_external ≤ request.rating →
      ∀ raw, provider = Except.ok raw →
        ∃ rv : Review,
          ReviewService.generate_review stores reviews request provider elapsed newId now =
            ({ success := true
               review := some rv
               error := none
               suggestions := []
               redirect_platforms :=
                 (store.platforms.filter (fun p => p.is_active)).map (fun p => p.url) },
             dset newId rv reviews) ∧
          rv.status = ReviewStatus.generated ∧
          rv.review_id = newId ∧
          (newId ∉ reviews.map Prod.fst → dset newId rv reviews = reviews ++ [(newId, rv)])) := by
  constructor
  · intro hlt
    simp [ReviewService.generate_review, hs, hlt]
  · intro hge raw hraw
    subst hraw
    refine ⟨{ review_id := newId
              store_id := request.store_id
              rating := request.rating
              title := (parseResponse raw).1
              content := (parseResponse raw).2
              review_type := ReviewService.determine_review_type request.rating
              review_source := ReviewSource.ai_generated
              language := request.language
              seo_keywords := if request.include_seo then store.seo_keywords else []
              metadata :=
                { keywords_used :=
                    AIService.extract_keywords_used (parseResponse raw).2 store.seo_keywords
                  sentiment_score := some (AIService.calculate_sentiment_score request.rating)
                  ai_model_used := some OPENAI_MODEL
                  generation_time := some elapsed }
              status := ReviewStatus.generated
              created_at := some now
              updated_at := some now }, ?_, rfl, rfl, ?_⟩
    · simp [ReviewService.generate_review, hs, Nat.not_lt.mpr hge,
        AIService.generate_review, ReviewService.get_redirect_platforms, ge_iff_le, hge]
    · intro hfresh
      exact dset_eq_append newId _ reviews hfresh

/-- Witness for C1: the low branch at rating 3 and the high branch at rating 5
on the sample store. -/
theorem C1_threshold_gate_witness :
    dget (sampleRequest 3).store_id [("sample-salon-001", sampleStore)] = some sampleStore ∧
    (sampleRequest 3).rating < sampleStore.settings.min_rating_for_external ∧
    ReviewService.generate_review [("sample-salon-001", sampleStore)] [] (sampleRequest 3)
        (Except.error "never called") 0 "id-1" 9 =
      ({ success := true
         review := none
         error := none
         suggestions := ["This is a low rating review. Please provide feedback for improvement.",
                         "Your valuable feedback will be used to improve our services."]
         redirect_platforms := [] }, []) ∧
    sampleStore.settings.min_rating_for_external ≤ (sampleRequest 5).rating ∧
    (∃ rv : Review,
      ReviewService.generate_review [("sample-salon-001", sampleStore)] [] (sampleRequest 5)
          (Except.ok "Title: Wonderful!\nReview: Loved the cut.") 0 "id-2" 9 =
        ({ success := true
           review := some rv
           error := none
           suggestions := []
           redirect_platforms :=
             (sampleStore.platforms.filter (fun p => p.is_active)).map (fun p => p.url) },
         dset "id-2" rv []) ∧
      rv.status = ReviewStatus.generated ∧
      rv.review_id = "id-2" ∧
      ("id-2" ∉ ([] : List (String × Review)).map Prod.fst →
        dset "id-2" rv [] = [] ++ [("id-2", rv)])) :=
  ⟨rfl, by decide,
   (C1_threshold_gate [("sample-salon-001", sampleStore)] [] (sampleRequest 3)
     (Except.error "never called") 0 "id-1" 9 sampleStore rfl).1 (by decide),
   by decide,
   (C1_threshold_gate [("sample-salon-001", sampleStore)] [] (sampleRequest 5)
     (Except.ok "Title: Wonderful!\nReview: Loved the cut.") 0 "id-2" 9 sampleStore rfl).2
     (by decide) "Title: Wonderful!\nReview: Loved the cut." rfl⟩

/-! ## Claim C9 -/

theorem patchReq_patched {β : Type} (f : Option (Option β)) (old : β) :
    PatchedReq f old (patchReq f old) := by
  refine ⟨fun x hx => by rw [hx]; simp [patchReq], fun h => ?_⟩
  rcases h with h | h <;> simp [h, patchReq]

theorem patchOpt_patched {β : Type} (f : Option (Option β)) (old : Option β) :
    PatchedOpt f old (patchOpt f old) := by
  refine ⟨fun x hx => by rw [hx]; simp [patchOpt], fun h => ?_⟩
  rcases h with h | h <;> simp [h, patchOpt]

/-- C9 (amended): store and review update have partial-patch semantics where a
field is overwritten exactly when it is explicitly present in the patch *with a
non-None value*; fields that are absent — or explicitly present as None — keep
their prior value; `updated_at` is bumped and all non-patchable fields are
untouched; updating a nonexistent record returns not-found without mutating. -/
theorem C9_partial_patch (stores : List (String × Store)) (sid : String) (u : StoreUpdate)
    (reviews : List (String × Review)) (rid : String) (v : ReviewUpdate) (now : Nat) :
    (dget sid stores = none → StoreService.update_store stores sid u now = (none, stores)) ∧
    (∀ s, dget sid stores = some s →
      ∃ s', StoreService.update_store stores sid u now = (some s', dset sid s' stores) ∧
        s'.updated_at = some now ∧ s'.store_id = s.store_id ∧
        s'.created_at = s.created_at ∧ s'.images = s.images ∧
        PatchedReq u.name s.name s'.name ∧
        PatchedOpt u.name_kana s.name_kana s'.name_kana ∧
        PatchedReq u.description s.description s'.description ∧
        PatchedReq u.location s.location s'.location ∧
        PatchedReq u.services s.services s'.services ∧
        PatchedReq u.seo_keywords s.seo_keywords s'.seo_keywords ∧
        PatchedReq u.platforms s.platforms s'.platforms ∧
        PatchedReq u.settings s.settings s'.settings) ∧
    (dget rid reviews = none → ReviewService.update_review reviews rid v now = (none, reviews)) ∧
    (∀ r, dget rid reviews = some r →
      ∃ r', ReviewService.update_review reviews rid v now = (some r', dset rid r' reviews) ∧
        r'.updated_at = some now ∧ r'.review_id = r.review_id ∧ r'.store_id = r.store_id ∧
        r'.created_at = r.created_at ∧ r'.published_at = r.published_at ∧
        r'.review_source = r.review_source ∧ r'.language = r.language ∧
        PatchedReq v.rating r.rating r'.rating ∧
        PatchedReq v.title r.title r'.title ∧
        PatchedReq v.content r.content r'.content ∧
        PatchedReq v.review_type r.review_type r'.review_type ∧
        PatchedReq v.seo_keywords r.seo_keywords r'.seo_keywords ∧
        PatchedReq v.metadata r.metadata r'.metadata ∧
        PatchedReq v.status r.status r'.status) := by
  refine ⟨?_, ?_, ?_, ?_⟩
  · intro h
    simp [StoreService.update_store, h]
  · intro s hs
    refine ⟨{ StoreService.apply_update s u with updated_at := some now },
      by simp [StoreService.update_store, hs], rfl, rfl, rfl, rfl,
      patchReq_patched u.name s.name, patchOpt_patched u.name_kana s.name_kana,
      patchReq_patched u.description s.description, patchReq_patched u.location s.location,
      patchReq_patched u.services s.services,
      patchReq_patched u.seo_keywords s.seo_keywords,
      patchReq_patched u.platforms s.platforms, patchReq_patched u.settings s.settings⟩
  · intro h
    simp [ReviewService.update_review, h]
  · intro r hr
    refine ⟨{ ReviewService.apply_update r v with updated_at := some now },
      by simp [ReviewService.update_review, hr], rfl, rfl, rfl, rfl, rfl, rfl, rfl,
      patchReq_patched v.rating r.rating, patchReq_patched v.title r.title,
      patchReq_patched v.content r.content, patchReq_patched v.review_type r.review_type,
      patchReq_patched v.seo_keywords r.seo_keywords, patchReq_patched v.metadata r.metadata,
      patchReq_patched v.status r.status⟩

/-- Counterexample to C9 as stated: `kanaPatch` has `name_kana` explicitly
present with value None, yet the updated store keeps its prior `name_kana`
instead of being overwritten with the patch's value. -/
theorem C9_counterexample :
    kanaPatch.name_kana = some none ∧
    (StoreService.update_store [("s1", sampleStore)] "s1" kanaPatch 9).1.map
      (fun s => s.name_kana) = some (some "Sample Beauty Salon") ∧
    (StoreService.update_store [("s1", sampleStore)] "s1" kanaPatch 9).1.map
      (fun s => s.name_kana) ≠ some none :=
  ⟨rfl, rfl, by decide⟩

/-- Witness for C9 on the sample store and review with a mixed patch. -/
theorem C9_partial_patch_witness :
    dget "s1" [("s1", sampleStore)] = some sampleStore ∧
    (∃ s', StoreService.update_store [("s1", sampleStore)] "s1"
        { name := some (some "Renamed"), name_kana := some none } 9 =
        (some s', dset "s1" s' [("s1", sampleStore)]) ∧
      s'.updated_at = some 9 ∧ s'.store_id = sampleStore.store_id ∧
      s'.created_at = sampleStore.created_at ∧ s'.images = sampleStore.images ∧
      PatchedReq (some (some "Renamed")) sampleStore.name s'.name ∧
      PatchedOpt (some none) sampleStore.name_kana s'.name_kana ∧
      PatchedReq none sampleStore.description s'.description ∧
      PatchedReq none sampleStore.location s'.location ∧
      PatchedReq none sampleStore.services s'.services ∧
      PatchedReq none sampleStore.seo_keywords s'.seo_keywords ∧
      PatchedReq none sampleStore.platforms s'.platforms ∧
      PatchedReq none sampleStore.settings s'.settings) :=
  ⟨rfl,
   (C9_partial_patch [("s1", sampleStore)] "s1"
     { name := some (some "Renamed"), name_kana := some none } [] "r1" {} 9).2.1
     sampleStore rfl⟩

/-! ## Claim C7 -/

theorem length_insertDesc {α : Type} (key : α → Nat) (x : α) (l : List α) :
    (insertDesc key x l).length = l.length + 1 := by
  induction l with
  | nil => rfl
  | cons y ys ih => by_cases h : key y ≤ key x <;> simp [insertDesc, h, ih]

theorem length_sortDesc {α : Type} (key : α → Nat) (l : List α) :
    (sortDesc key l).length = l.length := by
  induction l with
  | nil => rfl
  | cons x xs ih => simp [sortDesc, length_insertDesc, ih]

/-- Concatenating the page slices `l[i*L : i*L+L]` for `i = 0, …, k-1`
reconstructs `l` whenever `k` pages cover it. -/
theorem join_pages {α : Type} (L : Nat) : ∀ (k : Nat) (l : List α), l.length ≤ k * L →
    ((List.range k).map (fun i => (l.drop (i * L)).take L)).flatten = l := by
  intro k
  induction k with
  | zero =>
    intro l h
    simp only [Nat.zero_mul, Nat.le_zero, List.length_eq_zero] at h
    simp [h]
  | succ k ih =>
    intro l h
    rw [List.range_succ_eq_map, List.map_cons, List.map_map, List.flatten_cons]
    simp only [Nat.zero_mul, List.drop_zero]
    have hfun : ((fun i => List.take L (List.drop (i * L) l)) ∘ Nat.succ)
        = fun i => List.take L (List.drop (i * L) (List.drop L l)) := by
      funext i
      simp only [Function.comp_apply, List.drop_drop, Nat.succ_mul, Nat.add_comm]
    have hlen : (l.drop L).length ≤ k * L := by
      rw [List.length_drop]
      rw [Nat.succ_mul] at h
      omega
    rw [hfun, ih (l.drop L) hlen]
    exact List.take_append_drop L l

/-- C7: for any filtered dataset, page p with limit L returns exactly
`min L (N - (p-1)·L)` items with total `N` (truncated subtraction realises
`max 0`), and concatenating the pages `p = 1, …, k` for any `k` whose pages
cover the dataset reconstructs the full stably-sorted (created_at descending,
None earliest) list — each item exactly once; this holds for both
`ReviewService.list_reviews` and `StoreService.list_stores`. -/
theorem C7_pagination (reviews : List (String × Review)) (store_id : Option String)
    (status : Option ReviewStatus) (stores : List (String × Store)) (search : Option String)
    (page limit : Nat) (hp : 1 ≤ page) (hl : 1 ≤ limit) :
    ((ReviewService.list_reviews reviews store_id status page limit).1.length =
      min limit ((ReviewService.list_reviews reviews store_id status page limit).2 -
        (page - 1) * limit)) ∧
    ((ReviewService.list_reviews reviews store_id status page limit).2 =
      (ReviewService.filter_reviews reviews store_id status).length) ∧
    (∀ k, (ReviewService.filter_reviews reviews store_id status).length ≤ k * limit →
      ((List.range k).map
        (fun i => (ReviewService.list_reviews reviews store_id status (i + 1) limit).1)).flatten =
      sortDesc (fun r => sortKey r.created_at)
        (ReviewService.filter_reviews reviews store_id status)) ∧
    ((StoreService.list_stores stores page limit search).1.length =
      min limit ((StoreService.list_stores stores page limit search).2 -
        (page - 1) * limit)) ∧
    ((StoreService.list_stores stores page limit search).2 =
      (StoreService.filter_stores stores search).length) ∧
    (∀ k, (StoreService.filter_stores stores search).length ≤ k * limit →
      ((List.range k).map
        (fun i => (StoreService.list_stores stores (i + 1) limit search).1)).flatten =
      sortDesc (fun st => sortKey st.created_at) (StoreService.filter_stores stores search)) := by
  refine ⟨?_, ?_, ?_, ?_, ?_, ?_⟩
  · simp [ReviewService.list_reviews, paginate]
  · simp [ReviewService.list_reviews, length_sortDesc]
  · intro k hk
    simp only [ReviewService.list_reviews, paginate, Nat.add_sub_cancel]
    exact join_pages limit k _ (by rw [length_sortDesc]; exact hk)
  · simp [StoreService.list_stores, paginate]
  · simp [StoreService.list_stores, length_sortDesc]
  · intro k hk
    simp only [StoreService.list_stores, paginate, Nat.add_sub_cancel]
    exact join_pages limit k _ (by rw [length_sortDesc]; exact hk)

/-- Witness for C7 at page 1, limit 2 over singleton datasets. -/
theorem C7_pagination_witness :
    1 ≤ 1 ∧ 1 ≤ 2 ∧
    (((ReviewService.list_reviews [("r1", sampleReview)] none none 1 2).1.length =
      min 2 ((ReviewService.list_reviews [("r1", sampleReview)] none none 1 2).2 -
        (1 - 1) * 2)) ∧
    ((ReviewService.list_reviews [("r1", sampleReview)] none none 1 2).2 =
      (ReviewService.filter_reviews [("r1", sampleReview)] none none).length) ∧
    (∀ k, (ReviewService.filter_reviews [("r1", sampleReview)] none none).length ≤ k * 2 →
      ((List.range k).map
        (fun i => (ReviewService.list_reviews [("r1", sampleReview)] none none (i + 1) 2).1)).flatten =
      sortDesc (fun r => sortKey r.created_at)
        (ReviewService.filter_reviews [("r1", sampleReview)] none none)) ∧
    ((StoreService.list_stores [("s1", sampleStore)] 1 2 none).1.length =
      min 2 ((StoreService.list_stores [("s1", sampleStore)] 1 2 none).2 - (1 - 1) * 2)) ∧
    ((StoreService.list_stores [("s1", sampleStore)] 1 2 none).2 =
      (StoreService.filter_stores [("s1", sampleStore)] none).length) ∧
    (∀ k, (StoreService.filter_stores [("s1", sampleStore)] none).length ≤ k * 2 →
      ((List.range k).map
        (fun i => (StoreService.list_stores [("s1", sampleStore)] (i + 1) 2 none).1)).flatten =
      sortDesc (fun st => sortKey st.created_at)
        (StoreService.filter_stores [("s1", sampleStore)] none))) :=
  ⟨by decide, by decide,
   C7_pagination [("r1", sampleReview)] none none [("s1", sampleStore)] none 1 2
     (by decide) (by decide)⟩

/-! ## Claim C4 — supporting lemmas on the parser primitives -/

theorem isPrefixOf_append_self (p q : List Char) : p.isPrefixOf (p ++ q) = true := by
  induction p with
  | nil => simp [List.isPrefixOf]
  | cons c p' ih => simp [List.isPrefixOf, ih]

theorem isPrefixOf_append_left (pat : List Char) :
    ∀ (a b : List Char), pat.isPrefixOf a = true → pat.isPrefixOf (a ++ b) = true := by
  induction pat with
  | nil => intro a b h; simp [List.isPrefixOf]
  | cons p ps ih =>
    intro a b h
    cases a with
    | nil => simp [List.isPrefixOf] at h
    | cons x a' =>
      simp only [List.isPrefixOf, List.cons_append, Bool.and_eq_true] at h ⊢
      exact ⟨h.1, ih a' b h.2⟩

theorem occursL_append_right (pat s t : List Char) (h : occursL pat t = true) :
    occursL pat (s ++ t) = true := by
  induction s with
  | nil => simpa
  | cons c s' ih => simp [occursL, List.cons_append, ih]

theorem occursL_cons_false (pat : List Char) (c : Char) (t : List Char)
    (h : occursL pat (c :: t) = false) :
    pat.isPrefixOf (c :: t) = false ∧ occursL pat t = false := by
  simp only [occursL, Bool.or_eq_false_iff] at h
  exact h

theorem takeWhile_append_stop (p : Char → Bool) (xs : List Char) (y : Char) (ys : List Char)
    (hxs : ∀ x ∈ xs, p x = true) (hy : p y = false) :
    (xs ++ y :: ys).takeWhile p = xs := by
  induction xs with
  | nil => simp [List.takeWhile_cons, hy]
  | cons x xs' ih =>
    have hx := hxs x (List.mem_cons_self x xs')
    simp [List.cons_append, List.takeWhile_cons, hx,
      ih (fun z hz => hxs z (List.mem_cons_of_mem x hz))]

theorem isPrefixOf_ext_false (pat : List Char) (hnl : '\n' ∉ pat) :
    ∀ (s ext : List Char), pat.isPrefixOf s = false →
      pat.isPrefixOf (s ++ '\n' :: ext) = false := by
  induction pat with
  | nil => intro s ext h; simp [List.isPrefixOf] at h
  | cons p ps ih =>
    intro s ext h
    cases s with
    | nil =>
      have hp : p ≠ '\n' := fun he => hnl (by simp [he])
      simp [List.isPrefixOf, hp]
    | cons x s' =>
      simp only [List.isPrefixOf, List.cons_append] at h ⊢
      cases hpx : (p == x) with
      | false => simp [hpx]
      | true =>
        simp only [hpx, Bool.true_and] at h ⊢
        exact ih (fun hm => hnl (List.mem_cons_of_mem p hm)) s' ext h

theorem occursL_ext_false (pat : List Char) (hnl : '\n' ∉ pat) (ext : List Char)
    (hext : occursL pat ('\n' :: ext) = false) :
    ∀ s, occursL pat s = false → occursL pat (s ++ '\n' :: ext) = false := by
  intro s
  induction s with
  | nil => intro h; simpa using hext
  | cons c s' ih =>
    intro h
    obtain ⟨h1, h2⟩ := occursL_cons_false pat c s' h
    simp only [List.cons_append, occursL, Bool.or_eq_false_iff]
    exact ⟨isPrefixOf_ext_false pat hnl (c :: s') ext h1, ih h2⟩

theorem occursL_pre_false (p : Char) (ps : List Char) :
    ∀ (pre : List Char), (∀ c ∈ pre, (p == c) = false) →
    ∀ (rest : List Char), occursL (p :: ps) rest = false →
      occursL (p :: ps) (pre ++ rest) = false := by
  intro pre
  induction pre with
  | nil => intro _ rest h; simpa
  | cons c cs ih =>
    intro hpre rest h
    have hc : (p == c) = false := hpre c (List.mem_cons_self c cs)
    simp only [List.cons_append, occursL, Bool.or_eq_false_iff]
    exact ⟨by simp [List.isPrefixOf, hc],
           ih (fun d hd => hpre d (List.mem_cons_of_mem c hd)) rest h⟩

theorem isPrefixOf_append_take (pat : List Char) :
    ∀ (a b : List Char) (k : Nat), pat.length ≤ a.length + k →
      pat.isPrefixOf (a ++ b) = pat.isPrefixOf (a ++ b.take k) := by
  induction pat with
  | nil => intro a b k h; simp [List.isPrefixOf]
  | cons p ps ih =>
    intro a b k h
    cases a with
    | nil =>
      cases b with
      | nil => simp
      | cons x b' =>
        cases k with
        | zero => simp at h
        | succ k' =>
          simp only [List.nil_append, List.take_succ_cons, List.isPrefixOf]
          have h2 := ih [] b' k' (by simpa using h)
          simp only [List.nil_append] at h2
          rw [h2]
    | cons y a' =>
      simp only [List.cons_append, List.isPrefixOf, List.append_eq]
      have hlen : ps.length ≤ a'.length + k := by
        simp only [List.length_cons] at h
        omega
      rw [ih a' b k hlen]

theorem findTitle_none (s : List Char)
    (h : occursL ("title:".data) (lowerL s) = false) : findTitle s = none := by
  induction s with
  | nil => rfl
  | cons c t ih =>
    have h' : occursL ("title:".data) (Char.toLower c :: lowerL t) = false := by
      simpa [lowerL] using h
    obtain ⟨h1, h2⟩ := occursL_cons_false _ _ _ h'
    have hcond : ("title:".data).isPrefixOf (lowerL (c :: t)) = false := by
      simpa [lowerL] using h1
    simp only [findTitle, tryTitle, hcond]
    exact ih (by simpa [lowerL] using h2)

theorem findReview_none (s : List Char)
    (h : occursL ("review:".data) (lowerL s) = false) : findReview s = none := by
  induction s with
  | nil => rfl
  | cons c t ih =>
    have h' : occursL ("review:".data) (Char.toLower c :: lowerL t) = false := by
      simpa [lowerL] using h
    obtain ⟨h1, h2⟩ := occursL_cons_false _ _ _ h'
    have hcond : ("review:".data).isPrefixOf (lowerL (c :: t)) = false := by
      simpa [lowerL] using h1
    simp only [findReview, tryReview, hcond]
    exact ih (by simpa [lowerL] using h2)

theorem findReview_skip (q : List Char) :
    ∀ p, occursL ("review:".data) (lowerL p ++ (lowerL q).take 6) = false →
      findReview (p ++ q) = findReview q := by
  intro p
  induction p with
  | nil => intro _; rfl
  | cons c p' ih =>
    intro h
    have h' : occursL ("review:".data)
        (Char.toLower c :: (lowerL p' ++ (lowerL q).take 6)) = false := by
      simpa [lowerL] using h
    obtain ⟨h1, h2⟩ := occursL_cons_false _ _ _ h'
    have hlen : ("review:".data).length ≤ (Char.toLower c :: lowerL p').length + 6 := by
      simp
    have hcond : ("review:".data).isPrefixOf (lowerL ((c :: p') ++ q)) = false := by
      have heq := isPrefixOf_append_take ("review:".data)
        (Char.toLower c :: lowerL p') (lowerL q) 6 hlen
      have hrw : lowerL ((c :: p') ++ q)
          = (Char.toLower c :: lowerL p') ++ lowerL q := by
        simp [lowerL]
      rw [hrw, heq]
      simpa using h1
    rw [List.cons_append] at hcond ⊢
    simp only [findReview, tryReview, hcond]
    exact ih h2

theorem length_dropWhile_le' (p : Char → Bool) (l : List Char) :
    (l.dropWhile p).length ≤ l.length :=
  (List.dropWhile_suffix p).sublist.length_le

theorem dropWhile_cons_head (p : Char → Bool) (c : Char) (t : List Char)
    (h : List.dropWhile p (c :: t) = c :: t) : p c = false := by
  by_contra hc
  rw [Bool.not_eq_false] at hc
  rw [List.dropWhile_cons, if_pos hc] at h
  have hlen := congrArg List.length h
  have hle := length_dropWhile_le' p t
  simp only [List.length_cons] at hlen
  omega

theorem dropWhile_eq_self_of_stripL (l : List Char) (h : stripL l = l) :
    l.dropWhile isWS = l := by
  have h1 : l.length ≤ (l.dropWhile isWS).length := by
    conv_lhs => rw [← h]
    simp only [stripL, List.length_reverse]
    exact le_trans (length_dropWhile_le' _ _) (le_of_eq (List.length_reverse _))
  cases l with
  | nil => rfl
  | cons c t =>
    rw [List.dropWhile_cons]
    by_cases hc : isWS c = true
    · exfalso
      rw [List.dropWhile_cons, if_pos hc] at h1
      have hle := length_dropWhile_le' isWS t
      simp only [List.length_cons] at h1
      omega
    · simp [hc]

theorem head_not_ws (c : Char) (t : List Char) (h : stripL (c :: t) = c :: t) :
    isWS c = false :=
  dropWhile_cons_head isWS c t (dropWhile_eq_self_of_stripL (c :: t) h)

theorem dropWhile_reverse_eq_of_stripL (l : List Char) (h : stripL l = l) :
    l.reverse.dropWhile isWS = l.reverse := by
  have h0 : l.dropWhile isWS = l := dropWhile_eq_self_of_stripL l h
  have h2 : (l.reverse.dropWhile isWS).reverse = l := by
    calc (l.reverse.dropWhile isWS).reverse
        = ((l.dropWhile isWS).reverse.dropWhile isWS).reverse := by rw [h0]
      _ = stripL l := rfl
      _ = l := h
  have h3 := congrArg List.reverse h2
  simpa using h3

theorem stripL_append (A B : List Char) (hA0 : A ≠ []) (hAs : stripL A = A)
    (hB0 : B ≠ []) (hBs : stripL B = B) :
    stripL (A ++ '\n' :: B) = A ++ '\n' :: B := by
  obtain ⟨a, A', rfl⟩ := List.exists_cons_of_ne_nil hA0
  have ha : isWS a = false := head_not_ws a A' hAs
  have hrB : B.reverse.dropWhile isWS = B.reverse := dropWhile_reverse_eq_of_stripL B hBs
  cases hbr : B.reverse with
  | nil =>
    exact absurd (by simpa using congrArg List.reverse hbr) hB0
  | cons b rb =>
    have hb : isWS b = false := dropWhile_cons_head isWS b rb (hbr ▸ hrB)
    have hstep1 : ((a :: A') ++ '\n' :: B).dropWhile isWS = (a :: A') ++ '\n' :: B := by
      rw [List.cons_append, List.dropWhile_cons, if_neg (by simp [ha])]
    have hrev : (((a :: A') ++ '\n' :: B).reverse).dropWhile isWS
        = ((a :: A') ++ '\n' :: B).reverse := by
      have hform : ((a :: A') ++ '\n' :: B).reverse
          = b :: (rb ++ '\n' :: (a :: A').reverse) := by
        rw [List.reverse_append, List.reverse_cons, hbr]
        simp [List.append_assoc]
      rw [hform, List.dropWhile_cons, if_neg (by simp [hb])]
    show ((((a :: A') ++ '\n' :: B).dropWhile isWS).reverse.dropWhile isWS).reverse
        = (a :: A') ++ '\n' :: B
    rw [hstep1, hrev, List.reverse_reverse]

theorem splitNL_append (B : List Char) :
    ∀ A : List Char, '\n' ∉ A → splitNL (A ++ '\n' :: B) = A :: splitNL B := by
  intro A
  induction A with
  | nil => intro _; simp [splitNL]
  | cons c A' ih =>
    intro h
    have hc : ¬ c = '\n' := fun he => h (by simp [he])
    have h' : '\n' ∉ A' := fun hm => h (List.mem_cons_of_mem c hm)
    simp only [List.cons_append, splitNL, if_neg hc, List.append_eq]
    rw [ih h']

theorem splitNL_ne_nil (l : List Char) : splitNL l ≠ [] := by
  cases l with
  | nil => simp [splitNL]
  | cons c t =>
    by_cases hc : c = '\n'
    · simp [splitNL, hc]
    · cases hsp : splitNL t with
      | nil => simp [splitNL, hc, hsp]
      | cons seg rest => simp [splitNL, hc, hsp]

theorem joinNL_splitNL (l : List Char) : joinNL (splitNL l) = l := by
  induction l with
  | nil => rfl
  | cons c t ih =>
    by_cases hc : c = '\n'
    · subst hc
      simp only [splitNL, if_pos rfl]
      cases hsp : splitNL t with
      | nil => exact absurd hsp (splitNL_ne_nil t)
      | cons seg rest =>
        rw [hsp] at ih
        simp only [joinNL, List.nil_append]
        rw [ih]
    · simp only [splitNL, if_neg hc, List.append_eq]
      cases hsp : splitNL t with
      | nil => exact absurd hsp (splitNL_ne_nil t)
      | cons seg rest =>
        rw [hsp] at ih
        cases rest with
        | nil =>
          simp only [joinNL] at ih ⊢
          rw [ih]
        | cons r rs =>
          simp only [joinNL] at ih ⊢
          rw [List.cons_append, ih]

theorem findTitle_labeled (X R : List Char) (hX0 : X ≠ []) (hXs : stripL X = X)
    (hXnl : '\n' ∉ X) :
    findTitle ("Title: ".data ++ (X ++ '\n' :: R)) = some X := by
  obtain ⟨x, X', rfl⟩ := List.exists_cons_of_ne_nil hX0
  have hx : isWS x = false := head_not_ws x X' hXs
  have hxnl : ¬ x = '\n' := by
    intro he
    rw [he] at hx
    exact absurd hx (by decide)
  have h3 : tryTitle ('T' :: 'i' :: 't' :: 'l' :: 'e' :: ':' :: ' ' :: ((x :: X') ++ '\n' :: R))
      = some (x :: X') := by
    have hcond : ("title:".data).isPrefixOf
        (lowerL ('T' :: 'i' :: 't' :: 'l' :: 'e' :: ':' :: ' ' :: ((x :: X') ++ '\n' :: R)))
        = true := rfl
    have hd : (('T' :: 'i' :: 't' :: 'l' :: 'e' :: ':' :: ' ' :: ((x :: X') ++ '\n' :: R)).drop 6)
        = ' ' :: ((x :: X') ++ '\n' :: R) := rfl
    have h1 : ((' ' :: ((x :: X') ++ '\n' :: R)).takeWhile isWS) = [' '] := by
      rw [List.takeWhile_cons, if_pos (by decide : isWS ' ' = true), List.cons_append,
        List.takeWhile_cons, if_neg (by simp [hx])]
    have h2 : titleCap (' ' :: ((x :: X') ++ '\n' :: R)) 1 = some (x :: X') := by
      have hd1 : ((' ' :: ((x :: X') ++ '\n' :: R)).drop 1) = x :: (X' ++ '\n' :: R) := by
        simp
      rw [show (1 : Nat) = 0 + 1 from rfl]
      simp only [titleCap, hd1, if_neg hxnl]
      rw [show x :: (X' ++ '\n' :: R) = (x :: X') ++ '\n' :: R from rfl]
      rw [takeWhile_append_stop]
      · intro z hz
        simp only [bne_iff_ne, ne_eq]
        exact fun he => hXnl (he ▸ hz)
      · decide
    simp only [tryTitle, hcond, if_true, hd, h1, List.length_cons, List.length_nil, h2]
  show findTitle ('T' :: 'i' :: 't' :: 'l' :: 'e' :: ':' :: ' ' :: ((x :: X') ++ '\n' :: R))
      = some (x :: X')
  simp only [findTitle, h3]

theorem findReview_labeled (Y : List Char) (hY0 : Y ≠ []) (hYs : stripL Y = Y) :
    findReview ("Review: ".data ++ Y) = some Y := by
  obtain ⟨y, Y', rfl⟩ := List.exists_cons_of_ne_nil hY0
  have hy : isWS y = false := head_not_ws y Y' hYs
  have h3 : tryReview ('R' :: 'e' :: 'v' :: 'i' :: 'e' :: 'w' :: ':' :: ' ' :: (y :: Y'))
      = some (y :: Y') := by
    have hcond : ("review:".data).isPrefixOf
        (lowerL ('R' :: 'e' :: 'v' :: 'i' :: 'e' :: 'w' :: ':' :: ' ' :: (y :: Y'))) = true := rfl
    have hd : (('R' :: 'e' :: 'v' :: 'i' :: 'e' :: 'w' :: ':' :: ' ' :: (y :: Y')).drop 7)
        = ' ' :: (y :: Y') := rfl
    have h1 : ((' ' :: (y :: Y')).takeWhile isWS) = [' '] := by
      rw [List.takeWhile_cons, if_pos (by decide : isWS ' ' = true),
        List.takeWhile_cons, if_neg (by simp [hy])]
    have hmin : min ([' '].length) ((' ' :: (y :: Y')).length - 1) = 1 := by
      simp
    simp only [tryReview, hcond, if_true, hd, h1, List.isEmpty_cons, hmin]
    simp
  show findReview ('R' :: 'e' :: 'v' :: 'i' :: 'e' :: 'w' :: ':' :: ' ' :: (y :: Y'))
      = some (y :: Y')
  simp only [findReview, h3]

/-- C4 (amended): the labelled round-trip and the unlabeled fallback of
`AIService._parse_response`, under the side conditions the implementation
forces: the title line X must be nonempty, already trimmed, newline-free,
must not contain the case-insensitive `review:` label and must not start with
the `title:` label; the body Y must be nonempty, already trimmed, and must
not start with `review:`.  Then parsing `"Title: " ++ X ++ "\n" ++
"Review: " ++ Y` yields exactly `(X.take 100, Y)`.  For the fallback, a
response `A ++ "\n" ++ B` containing neither label, with a nonempty trimmed
first line A and nonempty trimmed remainder B, parses to `(A.take 100, B)`. -/
theorem C4_parse :
    (∀ X Y : List Char,
      X ≠ [] → '\n' ∉ X → stripL X = X →
      occursL ("review:".data) (lowerL X) = false →
      ("title:".data).isPrefixOf (lowerL X) = false →
      Y ≠ [] → stripL Y = Y →
      ("review:".data).isPrefixOf (lowerL Y) = false →
      parseCore ("Title: ".data ++ (X ++ '\n' :: ("Review: ".data ++ Y))) = (X.take 100, Y)) ∧
    (∀ A B : List Char,
      A ≠ [] → '\n' ∉ A → stripL A = A → B ≠ [] → stripL B = B →
      occursL ("title:".data) (lowerL (A ++ '\n' :: B)) = false →
      occursL ("review:".data) (lowerL (A ++ '\n' :: B)) = false →
      parseCore (A ++ '\n' :: B) = (A.take 100, B)) := by
  constructor
  · intro X Y hX0 hXnl hXs hXrv hXtl hY0 hYs hYrv
    have hft := findTitle_labeled X ("Review: ".data ++ Y) hX0 hXs hXnl
    have hlowp : lowerL ("Title: ".data ++ (X ++ ['\n']))
        = "title: ".data ++ (lowerL X ++ ['\n']) := by
      simp only [lowerL, List.map_append]
      rw [show List.map Char.toLower ("Title: ".data) = "title: ".data from by decide,
         show List.map Char.toLower ['\n'] = ['\n'] from by decide]
    have htake : (lowerL ("Review: ".data ++ Y)).take 6 = "review".data := by
      rw [show lowerL ("Review: ".data ++ Y) = lowerL ("Review: ".data) ++ lowerL Y from by
          simp [lowerL],
        show lowerL ("Review: ".data) = "review: ".data from by decide]
      rfl
    have hocc : occursL ("review:".data)
        (lowerL ("Title: ".data ++ (X ++ ['\n'])) ++ (lowerL ("Review: ".data ++ Y)).take 6)
        = false := by
      rw [hlowp, htake]
      have hassoc : ("title: ".data ++ (lowerL X ++ ['\n'])) ++ "review".data
          = "title: ".data ++ (lowerL X ++ '\n' :: "review".data) := by
        simp
      rw [hassoc]
      rw [show ("review:".data) = 'r' :: "eview:".data from rfl]
      apply occursL_pre_false
      · decide
      · rw [show ('r' :: "eview:".data) = "review:".data from rfl]
        exact occursL_ext_false ("review:".data) (by decide) ("review".data)
          (by decide) (lowerL X) hXrv
    have hfr : findReview ("Title: ".data ++ (X ++ '\n' :: ("Review: ".data ++ Y)))
        = some Y := by
      have hsplit : "Title: ".data ++ (X ++ '\n' :: ("Review: ".data ++ Y))
          = ("Title: ".data ++ (X ++ ['\n'])) ++ ("Review: ".data ++ Y) := by
        simp
      rw [hsplit,
        findReview_skip ("Review: ".data ++ Y) ("Title: ".data ++ (X ++ ['\n'])) hocc,
        findReview_labeled Y hY0 hYs]
    have hIsPrefRv : ("review:".data).isPrefixOf (lowerL X) = false := by
      cases X with
      | nil => exact absurd rfl hX0
      | cons x X' =>
        have h' : occursL ("review:".data) (Char.toLower x :: lowerL X') = false := by
          simpa [lowerL] using hXrv
        have hsp := occursL_cons_false _ _ _ h'
        simpa [lowerL] using hsp.1
    have hst1 : stripLabel ("title:".data) X = X := by
      simp [stripLabel, hXtl]
    have hst2 : stripLabel ("review:".data) X = X := by
      simp [stripLabel, hIsPrefRv]
    have hstY : stripLabel ("review:".data) Y = Y := by
      simp [stripLabel, hYrv]
    have hXe : X.isEmpty = false := by
      cases X with
      | nil => exact absurd rfl hX0
      | cons _ _ => rfl
    have hYe : Y.isEmpty = false := by
      cases Y with
      | nil => exact absurd rfl hY0
      | cons _ _ => rfl
    simp only [parseCore, hft, hfr, hXs, hYs, hst1, hst2, hstY, hXe, hYe]
    simp
  · intro A B hA0 hAnl hAs hB0 hBs ht hr
    have hft : findTitle (A ++ '\n' :: B) = none := findTitle_none _ ht
    have hfr : findReview (A ++ '\n' :: B) = none := findReview_none _ hr
    have hstrip : stripL (A ++ '\n' :: B) = A ++ '\n' :: B := stripL_append A B hA0 hAs hB0 hBs
    have hsplit : splitNL (A ++ '\n' :: B) = A :: splitNL B := splitNL_append B A hAnl
    have hlowresp : lowerL (A ++ '\n' :: B) = lowerL A ++ '\n' :: lowerL B := by
      simp only [lowerL, List.map_append, List.map_cons]
      rw [show Char.toLower '\n' = '\n' from by decide]
    have hAtl : ("title:".data).isPrefixOf (lowerL A) = false := by
      by_contra hcon
      rw [Bool.not_eq_false] at hcon
      have hpre : ("title:".data).isPrefixOf (lowerL A ++ '\n' :: lowerL B) = true :=
        isPrefixOf_append_left _ _ _ hcon
      rw [← hlowresp] at hpre
      cases hA : A with
      | nil => exact hA0 hA
      | cons a A' =>
        rw [hA] at ht hpre
        have h' : occursL ("title:".data)
            (Char.toLower a :: lowerL (A' ++ '\n' :: B)) = false := by
          simpa [lowerL] using ht
        have hh := (occursL_cons_false _ _ _ h').1
        rw [show Char.toLower a :: lowerL (A' ++ '\n' :: B)
            = lowerL ((a :: A') ++ '\n' :: B) from by simp [lowerL]] at hh
        rw [hh] at hpre
        exact Bool.noConfusion hpre
    have hArv : ("review:".data).isPrefixOf (lowerL A) = false := by
      by_contra hcon
      rw [Bool.not_eq_false] at hcon
      have hpre : ("review:".data).isPrefixOf (lowerL A ++ '\n' :: lowerL B) = true :=
        isPrefixOf_append_left _ _ _ hcon
      rw [← hlowresp] at hpre
      cases hA : A with
      | nil => exact hA0 hA
      | cons a A' =>
        rw [hA] at hr hpre
        have h' : occursL ("review:".data)
            (Char.toLower a :: lowerL (A' ++ '\n' :: B)) = false := by
          simpa [lowerL] using hr
        have hh := (occursL_cons_false _ _ _ h').1
        rw [show Char.toLower a :: lowerL (A' ++ '\n' :: B)
            = lowerL ((a :: A') ++ '\n' :: B) from by simp [lowerL]] at hh
        rw [hh] at hpre
        exact Bool.noConfusion hpre
    have hBrv : ("review:".data).isPrefixOf (lowerL B) = false := by
      by_contra hcon
      rw [Bool.not_eq_false] at hcon
      cases hB : B with
      | nil => exact hB0 hB
      | cons b B' =>
        rw [hB] at hcon
        have hcon' : ("review:".data).isPrefixOf (Char.toLower b :: lowerL B') = true := by
          simpa [lowerL] using hcon
        have hocc1 : occursL ("review:".data) (Char.toLower b :: lowerL B') = true := by
          simp [occursL, hcon']
        have hocc2 : occursL ("review:".data)
            ((lowerL A ++ ['\n']) ++ (Char.toLower b :: lowerL B')) = true :=
          occursL_append_right _ _ _ hocc1
        rw [hB] at hr
        rw [show (lowerL A ++ ['\n']) ++ (Char.toLower b :: lowerL B')
            = lowerL ((A ++ '\n' :: (b :: B'))) from by simp [lowerL]] at hocc2
        rw [hr] at hocc2
        exact Bool.noConfusion hocc2
    have hne : (splitNL B).isEmpty = false := by
      cases hsp : splitNL B with
      | nil => exact absurd hsp (splitNL_ne_nil B)
      | cons s0 srest => rfl
    have hjoin : stripL (joinNL (splitNL B)) = B := by
      rw [joinNL_splitNL, hBs]
    have hstA1 : stripLabel ("title:".data) A = A := by simp [stripLabel, hAtl]
    have hstA2 : stripLabel ("review:".data) A = A := by simp [stripLabel, hArv]
    have hstB : stripLabel ("review:".data) B = B := by simp [stripLabel, hBrv]
    have hAe : A.isEmpty = false := by
      cases A with
      | nil => exact absurd rfl hA0
      | cons _ _ => rfl
    have hBe : B.isEmpty = false := by
      cases B with
      | nil => exact absurd rfl hB0
      | cons _ _ => rfl
    simp only [parseCore, hft, hfr, hstrip, hsplit, hne, hjoin, hAs, hstA1, hstA2, hstB,
      hAe, hBe]
    simp [hstB, hBe]

/-- Counterexample to C4 as stated: with X = "Review: a" (a legal single-line
string) and Y = "b", the parser does not return (X, Y): the greedy
case-insensitive `Review:` search latches onto the label inside the title
line, producing title "a" and content "a\nReview: b". -/
theorem C4_counterexample :
    parseCore ("Title: Review: a\nReview: b".data)
      ≠ (("Review: a".data).take 100, "b".data) := by
  decide

/-- Witness for C4 on the spec's Scenario B response and a two-line unlabeled
response. -/
theorem C4_parse_witness :
    ("Wonderful!".data ≠ [] ∧ '\n' ∉ "Wonderful!".data ∧
     stripL "Wonderful!".data = "Wonderful!".data ∧
     occursL ("review:".data) (lowerL "Wonderful!".data) = false ∧
     ("title:".data).isPrefixOf (lowerL "Wonderful!".data) = false ∧
     "Loved the cut.".data ≠ [] ∧
     stripL "Loved the cut.".data = "Loved the cut.".data ∧
     ("review:".data).isPrefixOf (lowerL "Loved the cut.".data) = false ∧
     parseCore ("Title: ".data ++
         ("Wonderful!".data ++ '\n' :: ("Review: ".data ++ "Loved the cut.".data)))
       = ("Wonderful!".data.take 100, "Loved the cut.".data)) ∧
    parseCore ("first line".data ++ '\n' :: "second line".data)
      = ("first line".data.take 100, "second line".data) :=
  ⟨⟨by decide, by decide, by decide, by decide, by decide, by decide, by decide, by decide,
    C4_parse.1 "Wonderful!".data "Loved the cut.".data (by decide) (by decide) (by decide)
      (by decide) (by decide) (by decide) (by decide) (by decide)⟩,
   C4_parse.2 "first line".data "second line".data (by decide) (by decide) (by decide)
     (by decide) (by decide) (by decide) (by decide)⟩
